import Mathlib

/-!
Verification development for the StepFunction_Jsonata repository.

The repository ships a declarative workflow document (`stepFunction.asl.json`,
reproduced in `BLOG_POST_2.md`) together with three stub Lambda handlers.
The state-machine interpreter that executes the workflow document is an
external managed runtime; per the specification it is the core whose
semantics the workflow depends on.  We therefore embed:

* a JSON document model with path read / write / merge (spec section 4.1),
* the expression subset used by the workflow (spec section 4.2),
* the path resolver (spec section 4.3),
* the state-machine runtime with retry / catch / branch (spec section 4.4),
* the concrete workflow graph of the repository, and
* the stub handlers that do live in the source tree
  (`DocumentClassifierLambda`, `DataExtractorLambda`).

Numbers are modelled as rationals (the workflow only compares and copies
numeric scalars, so exact arithmetic is the faithful shallow embedding).
-/

/-- JSON values threaded through an execution (spec section 3, Document). -/
inductive Json where
  | null : Json
  | bool (b : Bool) : Json
  | num (q : ℚ) : Json
  | str (s : String) : Json
  | arr (elems : List Json) : Json
  | obj (fields : List (String × Json)) : Json
deriving Repr

namespace Json

/-- Top-level field lookup; non-objects have no fields. -/
def getField : Json → String → Option Json
  | .obj fs, k => go fs k
  | _, _ => none
where
  go : List (String × Json) → String → Option Json
    | [], _ => none
    | (k', v) :: rest, k => if k' = k then some v else go rest k

/-- Replace the binding of `k` (first occurrence) or append it. -/
def setIn : List (String × Json) → String → Json → List (String × Json)
  | [], k, v => [(k, v)]
  | (k', v') :: rest, k, v =>
      if k' = k then (k', v) :: rest else (k', v') :: setIn rest k v

/-- Set a top-level field, treating a non-object target as an empty object
(the document model creates intermediate containers as needed,
spec section 4.1). -/
def setField : Json → String → Json → Json
  | .obj fs, k, v => .obj (setIn fs k v)
  | _, k, v => .obj [(k, v)]

/-- Top-level field names of a value. -/
def keys : Json → List String
  | .obj fs => fs.map Prod.fst
  | _ => []

/-- Read at a dotted path; `none` when a traversed segment is absent
(read-time absence never throws, spec section 4.1). -/
def getPath : Json → List String → Option Json
  | j, [] => some j
  | j, k :: rest => match getField j k with
    | some sub => getPath sub rest
    | none => none

/-- `merge(path, value)` from spec section 4.1: places `value` at `path`,
replacing the whole document when `path` is root, creating intermediate
containers as needed. -/
def merge : Json → List String → Json → Json
  | _, [], v => v
  | j, k :: rest, v =>
      setField j k (merge ((getField j k).getD (.obj [])) rest v)

end Json

/-! ### Basic lemmas about the document model -/

theorem Json.getField.go_setIn_self (fs : List (String × Json)) (k : String) (v : Json) :
    Json.getField.go (Json.setIn fs k v) k = some v := by
  induction fs with
  | nil => simp [Json.setIn, Json.getField.go]
  | cons hd tl ih =>
    obtain ⟨k', v'⟩ := hd
    by_cases h : k' = k
    · simp [Json.setIn, Json.getField.go, h]
    · simp [Json.setIn, Json.getField.go, h, ih]

theorem Json.getField.go_setIn_ne (fs : List (String × Json)) (k j : String) (v : Json)
    (h : j ≠ k) :
    Json.getField.go (Json.setIn fs k v) j = Json.getField.go fs j := by
  induction fs with
  | nil => simp [Json.setIn, Json.getField.go, Ne.symm h]
  | cons hd tl ih =>
    obtain ⟨k', v'⟩ := hd
    by_cases hk : k' = k
    · subst hk
      simp [Json.setIn, Json.getField.go, Ne.symm h]
    · simp [Json.setIn, Json.getField.go, hk, ih]

theorem Json.getField_setField_self (j : Json) (k : String) (v : Json) :
    Json.getField (Json.setField j k v) k = some v := by
  cases j <;>
    simp [Json.setField, Json.getField, Json.getField.go_setIn_self,
      Json.getField.go]

theorem Json.getField_setField_ne (j : Json) (k k' : String) (v : Json) (h : k' ≠ k) :
    Json.getField (Json.setField j k v) k' = Json.getField j k' := by
  cases j <;>
    simp [Json.setField, Json.getField, Json.getField.go_setIn_ne _ _ _ _ h,
      Json.getField.go, Ne.symm h]

theorem Json.keys_setIn_superset (fs : List (String × Json)) (k : String) (v : Json) :
    fs.map Prod.fst ⊆ (Json.setIn fs k v).map Prod.fst := by
  induction fs with
  | nil => simp [Json.setIn]
  | cons hd tl ih =>
    obtain ⟨k', v'⟩ := hd
    by_cases h : k' = k
    · simp [Json.setIn, h]
    · simp only [Json.setIn, if_neg h, List.map_cons]
      exact List.cons_subset_cons _ ih

theorem Json.keys_setField_superset (j : Json) (k : String) (v : Json) :
    j.keys ⊆ (Json.setField j k v).keys := by
  cases j <;> simp [Json.setField, Json.keys, Json.keys_setIn_superset]

/-- Reading back a merged value at the very path it was merged at. -/
theorem Json.getPath_merge_self (p : List String) (j v : Json) :
    Json.getPath (Json.merge j p v) p = some v := by
  induction p generalizing j with
  | nil => simp [Json.merge, Json.getPath]
  | cons k rest ih =>
    simp [Json.merge, Json.getPath, Json.getField_setField_self, ih]

theorem Json.getField_merge_ne (j v : Json) (k : String) (rest : List String)
    (j' : String) (h : j' ≠ k) :
    Json.getField (Json.merge j (k :: rest) v) j' = Json.getField j j' := by
  simp [Json.merge, Json.getField_setField_ne _ _ _ _ h]

theorem Json.getField.go_eq_none_of_not_mem (fs : List (String × Json)) (k : String)
    (h : k ∉ fs.map Prod.fst) : Json.getField.go fs k = none := by
  induction fs with
  | nil => simp [Json.getField.go]
  | cons hd tl ih =>
    obtain ⟨k', v'⟩ := hd
    simp only [List.map_cons, List.mem_cons] at h
    push_neg at h
    simp [Json.getField.go, Ne.symm h.1, ih h.2]

/-- A key that is not among a value's field names reads as absent. -/
theorem Json.getField_eq_none_of_not_mem_keys (j : Json) (k : String)
    (h : k ∉ j.keys) : Json.getField j k = none := by
  cases j with
  | obj fs =>
    simp only [Json.keys] at h
    simpa [Json.getField] using Json.getField.go_eq_none_of_not_mem fs k h
  | null => simp [Json.getField]
  | bool b => simp [Json.getField]
  | num q => simp [Json.getField]
  | str s => simp [Json.getField]
  | arr es => simp [Json.getField]

/-! ### Conditions and the expression subset (spec sections 4.2, 4.4)

Modelled from the spec: the expression evaluator and the Choice-condition
evaluator belong to the external state-machine runtime, which is not part
of the repository's source tree; only the workflow document that uses them
is.  The definitions below follow spec section 4.2 ("comparisons coerce
`null` to not comparable and treat `NumericLessThan`-style comparisons
against a non-numeric operand as non-matching, never a runtime failure")
for the operators the workflow document exercises. -/

/-- A Choice-rule condition: a document path plus a test
(`IsNull` / `NumericLessThan` are the tests the workflow uses). -/
inductive Cond where
  | isNull (path : List String) : Cond
  | numericLessThan (path : List String) (bound : ℚ) : Cond

/-- Total condition evaluation: a missing or non-numeric operand is simply
non-matching; totality embeds "never a runtime failure". -/
def evalCond (doc : Json) : Cond → Bool
  | .isNull p =>
      match Json.getPath doc p with
      | some .null => true
      | _ => false
  | .numericLessThan p bound =>
      match Json.getPath doc p with
      | some (.num x) => decide (x < bound)
      | _ => false

/-- First-match evaluation of an ordered condition list with a default
(spec section 4.4, Branch). -/
def evalBranch (doc : Json) : List (Cond × String) → Option String → Option String
  | [], dflt => dflt
  | (c, n) :: rest, dflt =>
      if evalCond doc c then some n else evalBranch doc rest dflt

mutual
/-- The expression subset the workflow document uses (spec section 4.2):
literals, field projection, object construction, a shallow two-object
merge, and a string-equality ternary conditional. -/
inductive Expr where
  | lit (v : Json) : Expr
  | path (p : List String) : Expr
  | objE (fields : ExprFields) : Expr
  | merge2 (a b : Expr) : Expr
  | strEqCond (scrut : Expr) (lhs : String) (thn els : Expr) : Expr

/-- Field list of an object-construction expression. -/
inductive ExprFields where
  | nil : ExprFields
  | cons (k : String) (e : Expr) (rest : ExprFields) : ExprFields
end

/-- Shallow union of two objects, later argument winning on key conflict
(spec section 4.2, the merge function). -/
def mergeObjs : Json → Json → Json
  | .obj fs, .obj gs => .obj (gs.foldl (fun acc kv => Json.setIn acc kv.1 kv.2) fs)
  | _, b => b

mutual
/-- Expression evaluation against the current document; construction
contexts tolerate missing fields as `null` (spec section 4.2). -/
def evalExpr (doc : Json) : Expr → Json
  | .lit v => v
  | .path p => (Json.getPath doc p).getD .null
  | .objE fs => .obj (evalFields doc fs)
  | .merge2 a b => mergeObjs (evalExpr doc a) (evalExpr doc b)
  | .strEqCond scrut lhs thn els =>
      match evalExpr doc scrut with
      | .str s => if s = lhs then evalExpr doc thn else evalExpr doc els
      | _ => evalExpr doc els

def evalFields (doc : Json) : ExprFields → List (String × Json)
  | .nil => []
  | .cons k e rest => (k, evalExpr doc e) :: evalFields doc rest
end

/-! ### Path resolver (spec section 4.3)

Modelled from the spec: the three addressing contracts of the external
runtime (`restrictInput`, `projectParameters`, `injectResult`). -/

/-- `restrictInput(document, path)`: `get(path)` when a path is declared
(`null` for an absent optional path), the whole document otherwise. -/
def restrictInput (doc : Json) : Option (List String) → Json
  | none => doc
  | some p => (Json.getPath doc p).getD .null

/-- `projectParameters(document, paramSpec)`: a brand-new object, each
declared field either a literal or an evaluated expression. -/
def projectParameters (doc : Json) (spec : List (String × Expr)) : Json :=
  .obj (spec.map (fun kv => (kv.1, evalExpr doc kv.2)))

/-- `injectResult(document, path, result)`: `document.merge(path, result)`;
the root wildcard (empty path) returns the result itself, discarding all
prior fields. -/
def injectResult (doc : Json) (p : List String) (result : Json) : Json :=
  Json.merge doc p result

/-! ### Retry rules and the retry loop (spec sections 3, 4.4)

Modelled from the spec: the retry/backoff engine of the external runtime.
The workflow document declares `ErrorEquals ["States.TaskFailed"],
IntervalSeconds 2, MaxAttempts 3, BackoffRate 2` on `ClassifyDocument`. -/

/-- A retry rule: matched failure categories, initial delay, maximum total
attempt count, and backoff multiplier. -/
structure RetryRule where
  errorEquals : List String
  intervalSeconds : ℕ
  maxAttempts : ℕ
  backoffRate : ℕ

/-- A catch rule: matched categories (`States.ALL` is the wildcard), a
result-injection path for the failure payload, and a next-state name. -/
structure CatchRule where
  errorEquals : List String
  resultPath : List String
  next : String

/-- Outcome of one invocation of a unit of work. -/
inductive UowResult where
  | ok (v : Json) : UowResult
  | err (category cause : String) : UowResult

/-- Declaration-order retry decision over rules paired with their private
failure counters: `some (delay, counters')` to retry after `delay`,
`none` to fall through to catch handling (no rule matches, or the first
matching rule has exhausted its attempts).  A rule that has already
absorbed `f` failures grants a further attempt only while `f + 1 <
maxAttempts`, and that attempt (number `f + 2` overall under this rule)
waits `intervalSeconds * backoffRate ^ f`. -/
def retryDecision : List (RetryRule × ℕ) → String → Option (ℕ × List (RetryRule × ℕ))
  | [], _ => none
  | (r, f) :: rest, cat =>
      if cat ∈ r.errorEquals then
        if f + 1 < r.maxAttempts then
          some (r.intervalSeconds * r.backoffRate ^ f, (r, f + 1) :: rest)
        else none
      else
        (retryDecision rest cat).map (fun dl => (dl.1, (r, f) :: dl.2))

/-- Fuel-bounded retry loop: returns total invocation attempts, total
elapsed backoff, and the final result (attempt 1 waits nothing). -/
def retryGo (uow : ℕ → UowResult) :
    ℕ → ℕ → List (RetryRule × ℕ) → ℕ → ℕ × ℕ × UowResult
  | 0, attempt, _, backoff => (attempt, backoff, .err "States.Runtime" "out of fuel")
  | fuel + 1, attempt, rcs, backoff =>
      match uow attempt with
      | .ok v => (attempt, backoff, .ok v)
      | .err cat cause =>
          match retryDecision rcs cat with
          | some (d, rcs') => retryGo uow fuel (attempt + 1) rcs' (backoff + d)
          | none => (attempt, backoff, .err cat cause)

/-- Run a unit of work under a list of retry rules, attempt-counted per
rule independently. -/
def runWithRetry (uow : ℕ → UowResult) (rules : List RetryRule) :
    ℕ × ℕ × UowResult :=
  retryGo uow (1 + (rules.map (·.maxAttempts)).sum) 1 (rules.map ((·, 0))) 0

/-- First catch rule matching a failure category (`States.ALL` matches
everything). -/
def firstCatch (rules : List CatchRule) (cat : String) : Option CatchRule :=
  rules.find? (fun r => r.errorEquals.contains cat || r.errorEquals.contains "States.ALL")

/-- The failure payload a catch rule injects. -/
def errPayload (cat cause : String) : Json :=
  .obj [("Error", .str cat), ("Cause", .str cause)]

/-- Document produced when a catch rule handles an unrecovered failure:
the failure payload injected at the rule's declared result path
(spec section 4.4 step 4). -/
def applyCatch (doc : Json) (cr : CatchRule) (cat cause : String) : Json :=
  injectResult doc cr.resultPath (errPayload cat cause)

/-! ### States, the workflow graph, and the runtime loop (spec section 4.4)

Modelled from the spec: the tagged-variant state enum and the single
runtime loop of the external interpreter (spec section 9 design note),
restricted to the state kinds the workflow document uses
(Task = Invoke, Pass = Transform, Choice = Branch, Fail =
Terminate-Failure). -/

/-- One node of the workflow graph. -/
inductive WState where
  | task (resource : String) (inputPath : Option (List String))
      (params : Option (List (String × Expr))) (resultPath : Option (List String))
      (retryRules : List RetryRule) (catchRules : List CatchRule)
      (next : Option String) : WState
  | pass (params : List (String × Expr)) (resultPath : Option (List String))
      (next : String) : WState
  | choice (choices : List (Cond × String)) (dflt : Option String) : WState
  | fail (error cause : String) : WState

/-- A workflow document: initial state name plus named states
(spec section 6, workflow document format). -/
structure Workflow where
  startAt : String
  states : List (String × WState)

/-- All state names of a graph. -/
def stateNames (wf : Workflow) : List String := wf.states.map Prod.fst

/-- Look up a state by name. -/
def lookupState (wf : Workflow) (name : String) : Option WState :=
  wf.states.lookup name

/-- Every next-state name a state declares: the static successor, every
catch target, every branch target, and the branch default. -/
def WState.nextNames : WState → List String
  | .task _ _ _ _ _ cs nxt => nxt.toList ++ cs.map (·.next)
  | .pass _ _ n => [n]
  | .choice cs d => cs.map (·.2) ++ d.toList
  | .fail _ _ => []

/-- Does a state declare a Branch with no default? -/
def WState.branchNoDefault : WState → Bool
  | .choice _ none => true
  | _ => false

/-- One audit record per step (spec section 6, execution history). -/
structure StepRecord where
  stateName : String
  inputSnapshot : Json
  outputSnapshot : Json
  attempts : ℕ
  backoff : ℕ
deriving Repr

/-- How an execution ended. -/
inductive ResultKind where
  | succeeded : ResultKind
  | failed (error cause : String) : ResultKind
  | crashed (error cause : String) : ResultKind
  | outOfFuel : ResultKind
deriving Repr

/-- Final document, linear history, and termination status of one
execution (spec section 3, Execution). -/
structure Outcome where
  kind : ResultKind
  doc : Json
  history : List StepRecord
deriving Repr

/-- The runtime loop (spec section 4.4 per-step algorithm), fuel-bounded:
resolve input, project parameters, invoke with retry, catch or inject the
result, record the step, and advance.  `units` maps a resource name and
the attempt number to that attempt's outcome. -/
def runLoop (wf : Workflow) (units : String → Json → ℕ → UowResult) :
    ℕ → String → Json → List StepRecord → Outcome
  | 0, _, doc, hist => ⟨.outOfFuel, doc, hist⟩
  | fuel + 1, name, doc, hist =>
      match lookupState wf name with
      | none => ⟨.crashed "States.Runtime" ("missing state " ++ name), doc, hist⟩
      | some st =>
        match st with
        | .fail error cause =>
            ⟨.failed error cause, doc, hist ++ [⟨name, doc, doc, 0, 0⟩]⟩
        | .choice cs dflt =>
            match evalBranch doc cs dflt with
            | some nxt => runLoop wf units fuel nxt doc (hist ++ [⟨name, doc, doc, 0, 0⟩])
            | none => ⟨.crashed "NoMatchingBranch" name, doc, hist ++ [⟨name, doc, doc, 0, 0⟩]⟩
        | .pass params resultPath nxt =>
            let result := projectParameters doc params
            let doc' := match resultPath with
              | some p => injectResult doc p result
              | none => result
            runLoop wf units fuel nxt doc' (hist ++ [⟨name, doc, result, 0, 0⟩])
        | .task resource inputPath params resultPath retryRules catchRules nxt =>
            let input := restrictInput doc inputPath
            let payload := match params with
              | some ps => projectParameters input ps
              | none => input
            match runWithRetry (units resource payload) retryRules with
            | (attempts, backoff, .ok v) =>
                let doc' := match resultPath with
                  | some p => injectResult doc p v
                  | none => v
                let hist' := hist ++ [⟨name, payload, v, attempts, backoff⟩]
                match nxt with
                | some n => runLoop wf units fuel n doc' hist'
                | none => ⟨.succeeded, doc', hist'⟩
            | (attempts, backoff, .err cat cause) =>
                let hist' := hist ++ [⟨name, payload, errPayload cat cause, attempts, backoff⟩]
                match firstCatch catchRules cat with
                | some cr => runLoop wf units fuel cr.next (applyCatch doc cr cat cause) hist'
                | none => ⟨.crashed cat cause, doc, hist'⟩

/-- Run a workflow from its initial state on an input document. -/
def runWorkflow (wf : Workflow) (units : String → Json → ℕ → UowResult)
    (fuel : ℕ) (input : Json) : Outcome :=
  runLoop wf units fuel wf.startAt input []

/-- The step sent to a named state, when the history holds one. -/
def sentTo (o : Outcome) (name : String) : Option Json :=
  (o.history.find? (fun r => r.stateName == name)).map (·.inputSnapshot)

/-- The state names an execution visited, in order. -/
def visited (o : Outcome) : List String := o.history.map (·.stateName)

/-- Convenience conversion for object-construction field lists. -/
def efs : List (String × Expr) → ExprFields
  | [] => .nil
  | (k, e) :: rest => .cons k e (efs rest)

/-! ### The repository's workflow document

Embedded from the ASL definition in `src/BLOG_POST_2.md` (the
`stepFunction.asl.json` reproduced there).  `TransformForExtraction`
declares `QueryLanguage: JSONata` with the query
`$merge([$.document, {'metadata': {'classified': true, 'type':
$.classificationResult.documentType}}])`; following the blog's own
"State After Step 3" trace, the `document` parameter carries the
evaluated merge. -/

/-- The `ClassifyDocument` retry rule:
`ErrorEquals ["States.TaskFailed"], IntervalSeconds 2, MaxAttempts 3,
BackoffRate 2` (`src/BLOG_POST_2.md` lines 85-92). -/
def classifyRetryRule : RetryRule :=
  ⟨["States.TaskFailed"], 2, 3, 2⟩

/-- The `ClassifyDocument` catch rule:
`ErrorEquals ["States.ALL"], ResultPath $.error, Next ClassificationFailed`
(`src/BLOG_POST_2.md` lines 93-99). -/
def classifyCatchRule : CatchRule :=
  ⟨["States.ALL"], ["error"], "ClassificationFailed"⟩

/-- The document-processing workflow graph of `src/BLOG_POST_2.md`. -/
def docWorkflow : Workflow where
  startAt := "ClassifyDocument"
  states :=
    [ ("ClassifyDocument",
        .task "DocumentClassifier" none none (some ["classificationResult"])
          [classifyRetryRule] [classifyCatchRule] (some "CheckClassification")),
      ("CheckClassification",
        .choice
          [ (.isNull ["classificationResult", "documentType"], "ClassificationFailed"),
            (.numericLessThan ["classificationResult", "confidence"] (mkRat 7 10), "ManualReview") ]
          (some "TransformForExtraction")),
      ("TransformForExtraction",
        .pass
          [ ("document",
              .merge2 (.path ["document"])
                (.objE (efs [("metadata",
                  .objE (efs [("classified", .lit (.bool true)),
                              ("type", .path ["classificationResult", "documentType"])]))]))),
            ("documentType", .path ["classificationResult", "documentType"]),
            ("confidence", .path ["classificationResult", "confidence"]) ]
          (some ["extractionInput"]) "ExtractDocumentData"),
      ("ExtractDocumentData",
        .task "DataExtractor" (some ["extractionInput"]) none
          (some ["extractionResult"]) [] [] (some "ProcessExtractedData")),
      ("ProcessExtractedData",
        .task "BusinessAction" none
          (some
            [ ("actionType",
                .strEqCond (.path ["extractionInput", "documentType"]) "INVOICE"
                  (.lit (.str "processPayment")) (.lit (.str "createOrder"))),
              ("extractedData", .path ["extractionResult", "extractedData"]),
              ("documentId", .path ["document", "id"]) ])
          none [] [] none),
      ("ManualReview",
        .task "sns:publish" none
          (some [ ("TopicArn", .lit (.str "ManualReviewTopic")),
                  ("Message", .path ["document", "key"]) ])
          none [] [] none),
      ("ClassificationFailed",
        .fail "ClassificationError" "Unable to classify document") ]

/-! ### Graph validation and reachability (spec section 6)

Modelled from the spec: the wire-format validator of the external runtime
("a malformed graph — dangling next-state reference, Branch with no
default and no exhaustive match possibility, duplicate state names —
fails validation before the first Execution is attempted"). -/

/-- Graph validator: unique state names, an existing start state, every
declared next-state name resolving, and no Branch without a default. -/
def validateWorkflow (wf : Workflow) : Bool :=
  decide (stateNames wf).Nodup &&
  (stateNames wf).contains wf.startAt &&
  wf.states.all (fun p =>
    p.2.nextNames.all (fun n => (stateNames wf).contains n) &&
    !p.2.branchNoDefault)

/-- Successor names of a named state. -/
def succNames (wf : Workflow) (s : String) : List String :=
  match lookupState wf s with
  | some st => st.nextNames
  | none => []

/-- Fuel-bounded closure of the successor relation. -/
def reachAux (wf : Workflow) : ℕ → List String → List String
  | 0, acc => acc
  | n + 1, acc =>
      let fresh := (acc.flatMap (succNames wf)).filter (fun s => !acc.contains s)
      if fresh.isEmpty then acc else reachAux wf n (acc ++ fresh)

/-- State names reachable from the start state. -/
def reachableStates (wf : Workflow) : List String :=
  reachAux wf (wf.states.length + 1) [wf.startAt]

/-! ### The stub handlers in the source tree

`DocumentClassifierLambda` (`src/BLOG_POST_2.md`, the classifier stub) and
`DataExtractorLambda` (`src/unnamed/part_001`).  The classifier draws
`r = Math.random() ∈ [0,1)` and computes
`confidence = parseFloat((0.7 + r * 0.3).toFixed(4))` and
`needsReview = (0.7 + r * 0.3) < 0.85`; rounding to four decimals is
modelled with `round` on rationals.  The extractor is deterministic apart
from `new Date().toISOString()`, modelled as the `now` argument. -/

/-- Four-decimal rounding (`toFixed(4)` then `parseFloat`). -/
def round4 (q : ℚ) : ℚ := (round (q * 10000) : ℤ) / 10000

/-- The unrounded random confidence `0.7 + r * 0.3`. -/
def rawConfidence (r : ℚ) : ℚ := 7/10 + r * (3/10)

/-- `classificationResult.confidence` returned by the classifier stub. -/
def classifierConfidence (r : ℚ) : ℚ := round4 (rawConfidence r)

/-- `needManualReview` returned by the classifier stub: the unrounded
confidence compared against `0.85`. -/
def classifierNeedsReview (r : ℚ) : Bool := decide (rawConfidence r < 85/100)

/-- Full classifier stub response for document type `dt` and random
draw `r`. -/
def classifierResponse (dt : String) (r : ℚ) : Json :=
  .obj
    [ ("classificationResult",
        .obj [ ("documentType", .str dt),
               ("confidence", .num (classifierConfidence r)) ]),
      ("needManualReview", .bool (classifierNeedsReview r)) ]

/-- `DataExtractorLambda`: the type-indexed field switch
(`src/unnamed/part_001` lines 60-112). -/
def extractorFields (documentType s3Key now : String) : Json :=
  if documentType = "INVOICE" then
    .obj
      [ ("invoiceNumber", .str "INV-2025-001234"),
        ("invoiceDate", .str "2025-10-30"),
        ("dueDate", .str "2025-11-30"),
        ("vendorName", .str "Acme Corp"),
        ("totalAmount", .num (150005/10)),
        ("currency", .str "USD"),
        ("lineItems", .arr
          [ .obj [ ("description", .str "Product A"), ("quantity", .num 10),
                   ("unitPrice", .num 1000), ("amount", .num 10000) ],
            .obj [ ("description", .str "Product B"), ("quantity", .num 5),
                   ("unitPrice", .num (10001/10)), ("amount", .num (50005/10)) ] ]) ]
  else if documentType = "RECEIPT" then
    .obj
      [ ("receiptNumber", .str "RCP-2025-567890"),
        ("date", .str "2025-10-30"),
        ("merchantName", .str "Tech Store Inc"),
        ("totalAmount", .num (249999/100)),
        ("currency", .str "USD"),
        ("paymentMethod", .str "Credit Card") ]
  else if documentType = "PURCHASE_ORDER" then
    .obj
      [ ("poNumber", .str "PO-2025-789012"),
        ("orderDate", .str "2025-10-30"),
        ("deliveryDate", .str "2025-11-15"),
        ("supplier", .str "Global Supplies Ltd"),
        ("totalAmount", .num 50000),
        ("currency", .str "USD") ]
  else if documentType = "CONTRACT" then
    .obj
      [ ("contractNumber", .str "CNT-2025-345678"),
        ("effectiveDate", .str "2025-11-01"),
        ("expirationDate", .str "2026-10-31"),
        ("parties", .arr [ .str "Company A", .str "Company B" ]),
        ("contractValue", .num 1000000),
        ("currency", .str "USD") ]
  else
    .obj
      [ ("documentId", .str s3Key),
        ("extractionDate", .str now),
        ("status", .str "extracted") ]

/-- The four document types with dedicated extraction switch cases. -/
def knownDocumentTypes : List String :=
  ["INVOICE", "RECEIPT", "PURCHASE_ORDER", "CONTRACT"]

/-- `DataExtractorLambda` response (`src/unnamed/part_001` lines 114-125):
always a normal return, no failure branch. -/
def dataExtractorHandler (documentType s3Key now : String) : Json :=
  .obj
    [ ("extractedData",
        .obj
          [ ("documentType", .str documentType),
            ("fields", extractorFields documentType s3Key now),
            ("metadata",
              .obj
                [ ("extractionMethod", .str "AWS Textract"),
                  ("confidence", .num (95/100)),
                  ("timestamp", .str now) ]) ]) ]

/-! ### Concrete execution scenarios (spec section 8) -/

/-- The classify result of the end-to-end scenario:
`{"documentType":"INVOICE","confidence":0.94}`. -/
def classifyOutput94 : Json :=
  .obj [("documentType", .str "INVOICE"), ("confidence", .num (mkRat 94 100))]

/-- The same classify result with confidence `0.5`. -/
def classifyOutput50 : Json :=
  .obj [("documentType", .str "INVOICE"), ("confidence", .num (mkRat 1 2))]

/-- A representative extractor response for the scenario runs. -/
def extractorOutput : Json :=
  .obj
    [ ("extractedData", .obj [("invoiceNumber", .str "INV-2025-001")]),
      ("extractionMethod", .str "textract") ]

/-- Scenario units of work: every resource succeeds, the classifier
returning `classifyOut` on each attempt. -/
def scenarioUnits (classifyOut : Json) : String → Json → ℕ → UowResult :=
  fun resource _ _ =>
    if resource = "DocumentClassifier" then .ok classifyOut
    else if resource = "DataExtractor" then .ok extractorOutput
    else if resource = "BusinessAction" then .ok (.obj [("status", .str "COMPLETED")])
    else .ok .null

/-- Units of work whose classifier fails with `States.TaskFailed` on
attempts 1 and 2 and succeeds on attempt 3. -/
def unitsFailTwice : String → Json → ℕ → UowResult :=
  fun resource payload attempt =>
    if resource = "DocumentClassifier" then
      if attempt ≤ 2 then .err "States.TaskFailed" "transient" else .ok classifyOutput94
    else scenarioUnits classifyOutput94 resource payload attempt

/-- Units of work whose classifier fails with `States.TaskFailed` on every
attempt. -/
def unitsAlwaysFail : String → Json → ℕ → UowResult :=
  fun resource payload attempt =>
    if resource = "DocumentClassifier" then .err "States.TaskFailed" "persistent"
    else scenarioUnits classifyOutput94 resource payload attempt

/-- The scenario input `{"document":{"id":"d1"}}`. -/
def inputDoc : Json := .obj [("document", .obj [("id", .str "d1")])]

/-- A unit of work that fails with `States.TaskFailed` on attempts
strictly before `k` and succeeds with `v` from attempt `k` on. -/
def uowSucceedAt (k : ℕ) (v : Json) : ℕ → UowResult :=
  fun a => if a < k then .err "States.TaskFailed" "transient" else .ok v

/-- A unit of work that fails with `States.TaskFailed` on every attempt. -/
def uowNeverOk : ℕ → UowResult :=
  fun _ => .err "States.TaskFailed" "persistent"

theorem lookup_mem_assoc {l : List (String × WState)} {k : String} {v : WState}
    (h : List.lookup k l = some v) : (k, v) ∈ l := by
  induction l with
  | nil => simp [List.lookup] at h
  | cons hd tl ih =>
    obtain ⟨a, b⟩ := hd
    by_cases ha : k = a
    · subst ha
      simp [List.lookup] at h
      simp [h]
    · have hb : (k == a) = false := beq_eq_false_iff_ne.mpr ha
      simp only [List.lookup, hb] at h
      exact List.mem_cons_of_mem _ (ih h)

theorem lookupState_mem {wf : Workflow} {k : String} {v : WState}
    (h : lookupState wf k = some v) : (k, v) ∈ wf.states :=
  lookup_mem_assoc h

/-- **C2.** Branch (Choice) evaluation is first-match: the ordered
condition list is evaluated in declaration order, the first matching
condition's next state is taken (so of two matching conditions the
earlier-declared wins), and the default is taken when no condition
matches. -/
theorem branch_first_match (doc : Json) (cs : List (Cond × String))
    (dflt : Option String) :
    evalBranch doc cs dflt =
      match cs.find? (fun p => evalCond doc p.1) with
      | some p => some p.2
      | none => dflt := by
  induction cs with
  | nil => simp [evalBranch]
  | cons hd tl ih =>
    obtain ⟨c, n⟩ := hd
    by_cases h : evalCond doc c
    · have hf : List.find? (fun p => evalCond doc p.1) ((c, n) :: tl) = some (c, n) :=
        List.find?_cons_of_pos _ (by simpa using h)
      simp only [evalBranch, if_pos h, hf]
    · have hf : List.find? (fun p => evalCond doc p.1) ((c, n) :: tl) =
          List.find? (fun p => evalCond doc p.1) tl :=
        List.find?_cons_of_neg _ (by simpa using h)
      simp only [evalBranch, if_neg h, ih, hf]

/-- **C3.** Result-injection at a non-root path never loses a top-level
field (the field set grows), while injecting at the root wildcard returns
the result itself, discarding all prior fields. -/
theorem inject_result_field_monotonicity (doc result : Json) (p : List String) :
    (p ≠ [] → doc.keys ⊆ (injectResult doc p result).keys) ∧
    injectResult doc [] result = result := by
  constructor
  · intro hp
    cases p with
    | nil => exact absurd rfl hp
    | cons k rest =>
      simpa [injectResult, Json.merge] using
        Json.keys_setField_superset doc k
          (Json.merge ((Json.getField doc k).getD (.obj [])) rest result)
  · rfl

/-- Witness for C3 at the workflow's own classification injection. -/
theorem inject_result_field_monotonicity_witness :
    Json.keys inputDoc ⊆
      Json.keys (injectResult inputDoc ["classificationResult"] classifyOutput94) :=
  (inject_result_field_monotonicity inputDoc classifyOutput94
    ["classificationResult"]).1 (by decide)

/-- **C4.** A catch rule that handles an unrecovered failure preserves the
document: every field present before the step is still present and
unchanged, the field set grows, and the failure payload sits at the
rule's declared result path. -/
theorem catch_preserves_prior_fields (doc : Json) (cr : CatchRule)
    (cat cause : String) (k : String) (rest : List String)
    (hpath : cr.resultPath = k :: rest) (hfresh : k ∉ doc.keys) :
    (∀ (j : String) (v : Json), Json.getField doc j = some v →
        Json.getField (applyCatch doc cr cat cause) j = some v) ∧
    Json.getPath (applyCatch doc cr cat cause) cr.resultPath =
      some (errPayload cat cause) ∧
    doc.keys ⊆ (applyCatch doc cr cat cause).keys := by
  refine ⟨?_, ?_, ?_⟩
  · intro j v hj
    by_cases hjk : j = k
    · subst hjk
      rw [Json.getField_eq_none_of_not_mem_keys doc j hfresh] at hj
      cases hj
    · rw [applyCatch, injectResult, hpath, Json.getField_merge_ne _ _ _ _ _ hjk]
      exact hj
  · rw [applyCatch, injectResult]
    exact Json.getPath_merge_self _ _ _
  · rw [applyCatch, injectResult, hpath, Json.merge]
    exact Json.keys_setField_superset doc k _

/-- Witness for C4 at the workflow's own catch rule (`ResultPath $.error`)
on the scenario input document. -/
theorem catch_preserves_prior_fields_witness :
    (∀ (j : String) (v : Json), Json.getField inputDoc j = some v →
        Json.getField (applyCatch inputDoc classifyCatchRule
          "States.TaskFailed" "boom") j = some v) ∧
    Json.getPath (applyCatch inputDoc classifyCatchRule
        "States.TaskFailed" "boom") classifyCatchRule.resultPath =
      some (errPayload "States.TaskFailed" "boom") ∧
    Json.keys inputDoc ⊆
      Json.keys (applyCatch inputDoc classifyCatchRule "States.TaskFailed" "boom") :=
  catch_preserves_prior_fields inputDoc classifyCatchRule
    "States.TaskFailed" "boom" "error" [] rfl (by decide)

/-- **C8.** A `NumericLessThan` comparison whose operand is absent, null,
or non-numeric is simply non-matching; `evalCond` is a total function,
so such a comparison never produces a runtime failure. -/
theorem numeric_less_than_non_numeric_is_false (doc : Json)
    (p : List String) (bound : ℚ)
    (h : ∀ x : ℚ, Json.getPath doc p ≠ some (.num x)) :
    evalCond doc (.numericLessThan p bound) = false := by
  cases hgp : Json.getPath doc p with
  | none => simp [evalCond, hgp]
  | some v =>
    cases v with
    | null => simp [evalCond, hgp]
    | bool b => simp [evalCond, hgp]
    | num x => exact absurd hgp (h x)
    | str s => simp [evalCond, hgp]
    | arr es => simp [evalCond, hgp]
    | obj fs => simp [evalCond, hgp]

/-- Witness for C8: the comparison against a null operand evaluates to
false. -/
theorem numeric_less_than_non_numeric_is_false_witness :
    evalCond (.obj [("confidence", .null)])
      (.numericLessThan ["confidence"] (7/10)) = false :=
  numeric_less_than_non_numeric_is_false _ _ _
    (by
      intro x hx
      simp [Json.getPath, Json.getField, Json.getField.go] at hx)

/-- **C1.** Retry/backoff numeric contract of the `ClassifyDocument` rule
(`initialDelay 2, multiplier 2, maxAttempts 3`): a retry granted after `f`
prior failures waits `2 * 2 ^ f` (so attempt `k = f + 2` waits
`initialDelay * multiplier ^ (k - 2)`), attempt 1 waits nothing, the
cumulative backoff before attempts 1, 2, 3 is 0, 2, 2 + 4, the third
failure exhausts the rule without a further retry and falls through to
catch handling (routing to `ClassificationFailed`), and a unit of work
failing twice with `States.TaskFailed` then succeeding yields a
successful step with exactly 3 recorded invocation attempts and total
elapsed backoff `2 + 4 = 6`. -/
theorem retry_backoff_contract :
    (∀ f : ℕ, f + 1 < 3 →
      retryDecision [(classifyRetryRule, f)] "States.TaskFailed" =
        some (2 * 2 ^ f, [(classifyRetryRule, f + 1)])) ∧
    retryDecision [(classifyRetryRule, 2)] "States.TaskFailed" = none ∧
    runWithRetry (uowSucceedAt 1 classifyOutput94) [classifyRetryRule] =
      (1, 0, .ok classifyOutput94) ∧
    runWithRetry (uowSucceedAt 2 classifyOutput94) [classifyRetryRule] =
      (2, 2, .ok classifyOutput94) ∧
    runWithRetry (uowSucceedAt 3 classifyOutput94) [classifyRetryRule] =
      (3, 2 + 4, .ok classifyOutput94) ∧
    runWithRetry uowNeverOk [classifyRetryRule] =
      (3, 2 + 4, .err "States.TaskFailed" "persistent") ∧
    ((runWorkflow docWorkflow unitsFailTwice 10 inputDoc).history.map
        (fun r => (r.stateName, r.attempts, r.backoff))).head? =
      some ("ClassifyDocument", 3, 6) ∧
    (runWorkflow docWorkflow unitsFailTwice 10 inputDoc).kind = .succeeded ∧
    visited (runWorkflow docWorkflow unitsAlwaysFail 10 inputDoc) =
      ["ClassifyDocument", "ClassificationFailed"] := by
  refine ⟨?_, rfl, rfl, rfl, rfl, rfl, rfl, rfl, rfl⟩
  intro f hf
  have hf' : f = 0 ∨ f = 1 := by omega
  rcases hf' with h | h <;> subst h <;> rfl

/-- Witness for C1: the first granted retry (after one failure) waits
`2 * 2 ^ 0 = 2` time units. -/
theorem retry_backoff_contract_witness :
    retryDecision [(classifyRetryRule, 0)] "States.TaskFailed" =
      some (2 * 2 ^ 0, [(classifyRetryRule, 1)]) :=
  retry_backoff_contract.1 0 (by norm_num)

/-- **C5.** End-to-end scenario on `{"document":{"id":"d1"}}` with the
classifier returning `{"documentType":"INVOICE","confidence":0.94}`: the
run succeeds through `ClassifyDocument → CheckClassification →
TransformForExtraction → ExtractDocumentData → ProcessExtractedData`, the
Branch condition `confidence < 0.7` evaluates false, the Transform step
merges the document with `{"metadata":{"classified":true,"type":"INVOICE"}}`
under `extractionInput`, and the final conditional parameter projection
yields `actionType = "processPayment"`. -/
theorem end_to_end_invoice_scenario :
    (runWorkflow docWorkflow (scenarioUnits classifyOutput94) 10 inputDoc).kind =
      .succeeded ∧
    visited (runWorkflow docWorkflow (scenarioUnits classifyOutput94) 10 inputDoc) =
      ["ClassifyDocument", "CheckClassification", "TransformForExtraction",
       "ExtractDocumentData", "ProcessExtractedData"] ∧
    evalCond (injectResult inputDoc ["classificationResult"] classifyOutput94)
      (.numericLessThan ["classificationResult", "confidence"] (mkRat 7 10)) =
      false ∧
    (sentTo (runWorkflow docWorkflow (scenarioUnits classifyOutput94) 10 inputDoc)
        "ExtractDocumentData").bind
        (fun j => Json.getPath j ["document", "metadata"]) =
      some (.obj [("classified", .bool true), ("type", .str "INVOICE")]) ∧
    (sentTo (runWorkflow docWorkflow (scenarioUnits classifyOutput94) 10 inputDoc)
        "ExtractDocumentData").bind
        (fun j => Json.getPath j ["document", "id"]) = some (.str "d1") ∧
    (sentTo (runWorkflow docWorkflow (scenarioUnits classifyOutput94) 10 inputDoc)
        "ProcessExtractedData").bind
        (fun j => Json.getField j "actionType") = some (.str "processPayment") :=
  ⟨rfl, rfl, rfl, rfl, rfl, rfl⟩

/-- **C6.** The same scenario with classification confidence `0.5` routes
from the Branch to the manual-review terminal path; the extraction
Transform state is never reached. -/
theorem low_confidence_routes_to_manual_review :
    visited (runWorkflow docWorkflow (scenarioUnits classifyOutput50) 10 inputDoc) =
      ["ClassifyDocument", "CheckClassification", "ManualReview"] ∧
    "TransformForExtraction" ∉
      visited (runWorkflow docWorkflow (scenarioUnits classifyOutput50) 10 inputDoc) ∧
    evalCond (injectResult inputDoc ["classificationResult"] classifyOutput50)
      (.numericLessThan ["classificationResult", "confidence"] (mkRat 7 10)) =
      true ∧
    (runWorkflow docWorkflow (scenarioUnits classifyOutput50) 10 inputDoc).kind =
      .succeeded :=
  ⟨rfl, by decide, rfl, rfl⟩

theorem validateWorkflow_eq_true_iff (wf : Workflow) :
    validateWorkflow wf = true ↔
      (stateNames wf).Nodup ∧ wf.startAt ∈ stateNames wf ∧
      ∀ p ∈ wf.states,
        (∀ n ∈ p.2.nextNames, n ∈ stateNames wf) ∧ p.2.branchNoDefault = false := by
  unfold validateWorkflow
  simp [List.all_eq_true, List.elem_iff, and_assoc]

/-- A graph with a duplicated state name. -/
def badWorkflow : Workflow where
  startAt := "A"
  states := [("A", .fail "E" "c"), ("A", .fail "E" "c")]

/-- **C7.** Graph validation: the shipped workflow graph validates; for
every graph accepted by validation, every reachable state's declared
next-state names (static successor, catch targets, branch targets and the
branch default) resolve to existing states; and a graph with duplicate
state names, a dangling next-state reference, or a Branch without a
default fails validation. -/
theorem validation_guards_graph (wf : Workflow) :
    validateWorkflow docWorkflow = true ∧
    (validateWorkflow wf = true →
      ∀ s ∈ reachableStates wf, ∀ st, lookupState wf s = some st →
        ∀ n ∈ st.nextNames, n ∈ stateNames wf) ∧
    (¬ (stateNames wf).Nodup → validateWorkflow wf = false) ∧
    ((∃ p ∈ wf.states, ∃ n ∈ p.2.nextNames, n ∉ stateNames wf) →
      validateWorkflow wf = false) ∧
    ((∃ p ∈ wf.states, p.2.branchNoDefault = true) →
      validateWorkflow wf = false) := by
  refine ⟨rfl, ?_, ?_, ?_, ?_⟩
  · intro hv s _ st hlk n hn
    exact (((validateWorkflow_eq_true_iff wf).mp hv).2.2 _ (lookupState_mem hlk)).1 n hn
  · intro hnd
    cases hb : validateWorkflow wf with
    | false => rfl
    | true => exact absurd ((validateWorkflow_eq_true_iff wf).mp hb).1 hnd
  · rintro ⟨p, hp, n, hn, hnot⟩
    cases hb : validateWorkflow wf with
    | false => rfl
    | true =>
      exact absurd ((((validateWorkflow_eq_true_iff wf).mp hb).2.2 p hp).1 n hn) hnot
  · rintro ⟨p, hp, hbr⟩
    cases hb : validateWorkflow wf with
    | false => rfl
    | true =>
      have := (((validateWorkflow_eq_true_iff wf).mp hb).2.2 p hp).2
      rw [this] at hbr
      cases hbr

/-- Witness for C7: the duplicate-name graph fails validation. -/
theorem validation_guards_graph_witness :
    validateWorkflow badWorkflow = false :=
  (validation_guards_graph badWorkflow).2.2.1 (by decide)

/-- **C9.** For every random draw `r ∈ [0,1)` the classifier stub's
rounded confidence `0.7 + r * 0.3` is at least `0.7`, `needManualReview`
holds exactly when the unrounded confidence is below `0.85`, and in
consequence the `CheckClassification` condition
`confidence NumericLessThan 0.7` is never satisfied by this stub's
output. -/
theorem classifier_stub_confidence_contract (r : ℚ) (h0 : 0 ≤ r) (h1 : r < 1) :
    7/10 ≤ classifierConfidence r ∧
    (classifierNeedsReview r = true ↔ rawConfidence r < 85/100) ∧
    ∀ (doc : Json) (p : List String),
      Json.getPath doc p = some (.num (classifierConfidence r)) →
      evalCond doc (.numericLessThan p (mkRat 7 10)) = false := by
  have hraw : (7 : ℚ)/10 ≤ rawConfidence r := by
    unfold rawConfidence
    nlinarith
  have hconf : (7 : ℚ)/10 ≤ classifierConfidence r := by
    unfold classifierConfidence round4
    have h7000 : (7000 : ℤ) ≤ round (rawConfidence r * 10000) := by
      have hle : ((7000 : ℤ) : ℚ) ≤ rawConfidence r * 10000 := by
        push_cast
        nlinarith
      calc (7000 : ℤ) = round (((7000 : ℤ) : ℚ)) := (round_intCast 7000).symm
        _ ≤ round (rawConfidence r * 10000) := by
            rw [round_eq, round_eq]
            exact Int.floor_le_floor (by linarith)
    have hcast : ((7000 : ℤ) : ℚ) ≤ ((round (rawConfidence r * 10000) : ℤ) : ℚ) := by
      exact_mod_cast h7000
    push_cast at hcast
    linarith
  refine ⟨hconf, ?_, ?_⟩
  · unfold classifierNeedsReview
    constructor
    · exact of_decide_eq_true
    · exact decide_eq_true
  · intro doc p hp
    have hnotlt : ¬ (classifierConfidence r < mkRat 7 10) := by
      refine not_lt.mpr (le_trans ?_ hconf)
      rw [Rat.mkRat_eq_div]
      norm_num
    simp [evalCond, hp, hnotlt]

/-- Witness for C9 at the draw `r = 1/2`. -/
theorem classifier_stub_confidence_contract_witness :
    7/10 ≤ classifierConfidence (1/2) ∧
    (classifierNeedsReview (1/2) = true ↔ rawConfidence (1/2) < 85/100) ∧
    ∀ (doc : Json) (p : List String),
      Json.getPath doc p = some (.num (classifierConfidence (1/2))) →
      evalCond doc (.numericLessThan p (mkRat 7 10)) = false :=
  classifier_stub_confidence_contract (1/2) (by norm_num) (by norm_num)

/-- **C10.** The data-extractor stub always returns normally (it is a
total function with no failure branch): `extractedData.documentType`
echoes the event's `documentType`, `metadata.extractionMethod` is
`"AWS Textract"`, `metadata.confidence` is `0.95`, and for any document
type outside the four dedicated switch cases the returned fields carry
`documentId = s3Key` and `status = "extracted"`. -/
theorem data_extractor_contract (documentType s3Key now : String) :
    Json.getPath (dataExtractorHandler documentType s3Key now)
      ["extractedData", "documentType"] = some (.str documentType) ∧
    Json.getPath (dataExtractorHandler documentType s3Key now)
      ["extractedData", "metadata", "extractionMethod"] =
      some (.str "AWS Textract") ∧
    Json.getPath (dataExtractorHandler documentType s3Key now)
      ["extractedData", "metadata", "confidence"] = some (.num (95/100)) ∧
    (documentType ∉ knownDocumentTypes →
      Json.getField (extractorFields documentType s3Key now) "documentId" =
        some (.str s3Key) ∧
      Json.getField (extractorFields documentType s3Key now) "status" =
        some (.str "extracted")) := by
  refine ⟨rfl, rfl, rfl, ?_⟩
  intro h
  simp only [knownDocumentTypes, List.mem_cons, List.not_mem_nil, or_false,
    not_or] at h
  obtain ⟨h1, h2, h3, h4⟩ := h
  rw [extractorFields, if_neg h1, if_neg h2, if_neg h3, if_neg h4]
  exact ⟨rfl, rfl⟩

/-- Witness for C10 at the generic document type `"FORM"`. -/
theorem data_extractor_contract_witness :
    Json.getField (extractorFields "FORM" "docs/key.pdf" "2025-10-30T10:00:00Z")
      "documentId" = some (.str "docs/key.pdf") ∧
    Json.getField (extractorFields "FORM" "docs/key.pdf" "2025-10-30T10:00:00Z")
      "status" = some (.str "extracted") :=
  (data_extractor_contract "FORM" "docs/key.pdf" "2025-10-30T10:00:00Z").2.2.2
    (by decide)
